import Mathlib

/-!
Shallow embedding of `src/semantiva_imaging/data_types/data_types.py`:
the single-channel image data types of `semantiva-imaging`.

NumPy arrays are modelled as a shape (list of axis extents), a dtype tag
and a flat row-major list of exact element values (`ℚ`).  The dtype casts
the code performs (`uint16`/`int16` → `float32`) are value-preserving in
IEEE-754, so `astype` changes only the dtype tag.  The Python exceptions
are mapped to the spec's error taxonomy: the `ndim` asserts raise
`InvalidRank`, the dtype assert raises `UnsupportedDType`, `append`'s
`TypeError` is `TypeMismatch` (unrepresentable here because Lean's typing
already forbids passing a non-image), and `append`'s shape `ValueError`
is `ShapeMismatch`.
-/

namespace SemantivaImaging

/-- NumPy dtype tags relevant to this code base. -/
inductive DType
  | uint8
  | int16
  | uint16
  | int32
  | float32
  | float64
deriving DecidableEq, Fintype

/-- `np.promote_types` (= the dtype of `np.concatenate` on two arrays)
restricted to the modelled dtypes. -/
def DType.promote : DType → DType → DType
  | .uint8, d => d
  | d, .uint8 => d
  | .int16, .int16 => .int16
  | .int16, .uint16 => .int32
  | .uint16, .int16 => .int32
  | .uint16, .uint16 => .uint16
  | .int16, .int32 => .int32
  | .int32, .int16 => .int32
  | .uint16, .int32 => .int32
  | .int32, .uint16 => .int32
  | .int32, .int32 => .int32
  | .int16, .float32 => .float32
  | .float32, .int16 => .float32
  | .uint16, .float32 => .float32
  | .float32, .uint16 => .float32
  | .int32, .float32 => .float64
  | .float32, .int32 => .float64
  | .float32, .float32 => .float32
  | _, .float64 => .float64
  | .float64, _ => .float64

/-- A NumPy `ndarray`: shape, dtype tag, flat row-major data. -/
structure NDArray where
  shape : List Nat
  dtype : DType
  data : List ℚ
deriving DecidableEq

/-- `a.ndim` -/
def NDArray.ndim (a : NDArray) : Nat := a.shape.length

/-- `a.size` (total number of elements, the product of the shape) -/
def NDArray.size (a : NDArray) : Nat := a.shape.prod

/-- `a.astype(d)`: the casts performed by this code (`uint16`/`int16` to
`float32`) are exactly value-preserving, so only the dtype tag changes. -/
def NDArray.astype (a : NDArray) (d : DType) : NDArray := ⟨a.shape, d, a.data⟩

/-- `np.expand_dims(a, axis=0)` -/
def expandDims0 (a : NDArray) : NDArray := ⟨1 :: a.shape, a.dtype, a.data⟩

/-- `np.concatenate((s, np.expand_dims(a, axis=0)), axis=0)`, valid when
`a.shape = s.shape[1:]` (checked by the caller in `append`). -/
def concatenate0 (s a : NDArray) : NDArray :=
  ⟨(s.shape.headI + 1) :: s.shape.drop 1, s.dtype.promote a.dtype, s.data ++ a.data⟩

/-- `a[i]` for a stack buffer: the `i`-th slice along axis 0. -/
def NDArray.slice0 (a : NDArray) (i : Nat) : NDArray :=
  ⟨a.shape.drop 1, a.dtype,
    (a.data.drop (i * (a.shape.drop 1).prod)).take (a.shape.drop 1).prod⟩

/-- The spec's error taxonomy (§7) for the exceptions this code raises. -/
inductive Err
  | InvalidRank
  | UnsupportedDType
  | TypeMismatch
  | ShapeMismatch
deriving DecidableEq

instance {ε α : Type} [DecidableEq ε] [DecidableEq α] : DecidableEq (Except ε α) :=
  fun x y =>
  match x, y with
  | .ok a, .ok b =>
    if h : a = b then .isTrue (by rw [h]) else .isFalse (fun hh => by cases hh; exact h rfl)
  | .error a, .error b =>
    if h : a = b then .isTrue (by rw [h]) else .isFalse (fun hh => by cases hh; exact h rfl)
  | .ok _, .error _ => .isFalse (fun hh => by cases hh)
  | .error _, .ok _ => .isFalse (fun hh => by cases hh)

/-- `_ALLOWED_DTYPES = (np.uint8, np.float32, np.float64)` -/
def _ALLOWED_DTYPES : List DType := [.uint8, .float32, .float64]

/-- Python tuple rendering of a NumPy shape, as an f-string interpolates it. -/
def shapeToString (s : List Nat) : String :=
  match s with
  | [n] => "(" ++ toString n ++ ",)"
  | _ => "(" ++ String.intercalate ", " (s.map toString) ++ ")"

/-- A constructed `SingleChannelImage`: its `.data` buffer. -/
structure SingleChannelImage where
  data : NDArray
deriving DecidableEq

/-- `SingleChannelImage.__init__(data, auto_cast)`:
rank assert, then the 16-bit normalization, then the dtype assert
(only when `auto_cast`), then the buffer is stored. -/
def SingleChannelImage.make (data : NDArray) (auto_cast : Bool) :
    Except Err SingleChannelImage :=
  if data.ndim ≠ 2 then .error .InvalidRank
  else
    let d := if (data.dtype = DType.uint16 ∨ data.dtype = DType.int16) ∧ auto_cast = true
      then data.astype .float32 else data
    if auto_cast = true ∧ d.dtype ∉ _ALLOWED_DTYPES then .error .UnsupportedDType
    else .ok ⟨d⟩

/-- `SingleChannelImage.__str__` -/
def SingleChannelImage.describe (img : SingleChannelImage) : String :=
  "SingleChannelImage: " ++ shapeToString img.data.shape

/-- A constructed `SingleChannelImageStack`: its `._data` buffer. -/
structure SingleChannelImageStack where
  _data : NDArray
deriving DecidableEq

/-- `SingleChannelImageStack.__init__(data, auto_cast)` -/
def SingleChannelImageStack.make (data : NDArray) (auto_cast : Bool) :
    Except Err SingleChannelImageStack :=
  if data.ndim ≠ 3 then .error .InvalidRank
  else
    let d := if (data.dtype = DType.uint16 ∨ data.dtype = DType.int16) ∧ auto_cast = true
      then data.astype .float32 else data
    if auto_cast = true ∧ d.dtype ∉ _ALLOWED_DTYPES then .error .UnsupportedDType
    else .ok ⟨d⟩

/-- `SingleChannelImageStack.append(item)`.  The `isinstance` `TypeError`
branch is enforced by Lean's typing of `item`; the `ValueError` for a
non-2-D `item.data` is mapped to `InvalidRank`, the shape `ValueError`
to `ShapeMismatch`. -/
def SingleChannelImageStack.append (s : SingleChannelImageStack)
    (item : SingleChannelImage) : Except Err SingleChannelImageStack :=
  let new_image := item.data
  if new_image.ndim ≠ 2 then .error .InvalidRank
  else if s._data.size = 0 then .ok ⟨expandDims0 new_image⟩
  else if new_image.shape ≠ s._data.shape.drop 1 then .error .ShapeMismatch
  else .ok ⟨concatenate0 s._data new_image⟩

/-- `append` as a state transition: the Python method mutates `self._data`
in a single final assignment, so when it raises, the stack is unchanged. -/
def SingleChannelImageStack.appendRun (s : SingleChannelImageStack)
    (item : SingleChannelImage) : Except Err Unit × SingleChannelImageStack :=
  match s.append item with
  | .ok s' => (.ok (), s')
  | .error e => (.error e, s)

/-- `SingleChannelImageStack._initialize_empty()`: `np.empty((0, 0, 0))`
(default dtype `float64`, no elements). -/
def SingleChannelImageStack._initialize_empty : NDArray :=
  ⟨[0, 0, 0], .float64, []⟩

/-- `SingleChannelImageStack.__len__` -/
def SingleChannelImageStack.len (s : SingleChannelImageStack) : Nat :=
  s._data.shape.headI

/-- `list(iter(stack))`: `__iter__` yields `SingleChannelImage(self._data[i])`
for `i in range(self._data.shape[0])`, with the default `auto_cast=True`;
running the generator to completion fails if any construction raises. -/
def SingleChannelImageStack.toList (s : SingleChannelImageStack) :
    Except Err (List SingleChannelImage) :=
  (List.range s._data.shape.headI).mapM
    (fun i => SingleChannelImage.make (s._data.slice0 i) true)

/-- `SingleChannelImageStack.__str__` -/
def SingleChannelImageStack.describe (s : SingleChannelImageStack) : String :=
  "ImageStackDataType: " ++ shapeToString s._data.shape

/-- Appending a list of images in order, stopping at the first failure. -/
def foldAppend (s : SingleChannelImageStack) :
    List SingleChannelImage → Except Err SingleChannelImageStack
  | [] => .ok s
  | i :: rest =>
    match s.append i with
    | .ok s' => foldAppend s' rest
    | .error e => .error e

/-! ### Helper lemmas shared by several claims -/

theorem allowed_not_sixteen_bit :
    ∀ d ∈ _ALLOWED_DTYPES, ¬(d = DType.uint16 ∨ d = DType.int16) := by decide

theorem promote_allowed :
    ∀ a b : DType, a ∈ _ALLOWED_DTYPES → b ∈ _ALLOWED_DTYPES →
      a.promote b ∈ _ALLOWED_DTYPES := by decide

theorem append_empty_eq (s : SingleChannelImageStack) (i : SingleChannelImage)
    (hsz : s._data.size = 0) (h2 : i.data.ndim = 2) :
    s.append i = .ok ⟨expandDims0 i.data⟩ := by
  simp [SingleChannelImageStack.append, h2, hsz]

theorem append_nonempty_eq (s : SingleChannelImageStack) (i : SingleChannelImage)
    (k H W : Nat) (hs : s._data.shape = [k, H, W]) (hsz : s._data.size ≠ 0)
    (hi : i.data.shape = [H, W]) :
    s.append i = .ok ⟨⟨[k + 1, H, W], s._data.dtype.promote i.data.dtype,
      s._data.data ++ i.data.data⟩⟩ := by
  have h2 : i.data.ndim = 2 := by simp [NDArray.ndim, hi]
  simp [SingleChannelImageStack.append, h2, hsz, hi, hs, concatenate0]

theorem make_stack_ok_shape (b : NDArray) (ac : Bool) (st : SingleChannelImageStack)
    (h : SingleChannelImageStack.make b ac = .ok st) : st._data.shape = b.shape := by
  unfold SingleChannelImageStack.make at h
  split at h
  · cases h
  · dsimp only at h
    split_ifs at h <;> injection h with h <;> subst h <;> simp [NDArray.astype]

/-! ### Claim theorems -/

/-- C8: a buffer of rank ≠ 2 makes `SingleChannelImage` construction fail
with `InvalidRank`, and a buffer of rank ≠ 3 makes `SingleChannelImageStack`
construction fail with `InvalidRank`, for both values of `auto_cast`. -/
theorem rank_validation (b : NDArray) (ac : Bool) :
    (b.ndim ≠ 2 → SingleChannelImage.make b ac = .error .InvalidRank) ∧
    (b.ndim ≠ 3 → SingleChannelImageStack.make b ac = .error .InvalidRank) := by
  constructor <;> intro h <;>
    simp [SingleChannelImage.make, SingleChannelImageStack.make, h]

/-- Witness for C8 at rank-3 and rank-2 buffers with both `auto_cast` values. -/
theorem rank_validation_witness :
    SingleChannelImage.make ⟨[2, 2, 2], .float64, []⟩ true = .error .InvalidRank ∧
    SingleChannelImage.make ⟨[4], .float64, []⟩ false = .error .InvalidRank ∧
    SingleChannelImageStack.make ⟨[2, 2], .float64, []⟩ true = .error .InvalidRank ∧
    SingleChannelImageStack.make ⟨[2, 2], .float64, []⟩ false = .error .InvalidRank :=
  ⟨(rank_validation ⟨[2, 2, 2], .float64, []⟩ true).1 (by decide),
   (rank_validation ⟨[4], .float64, []⟩ false).1 (by decide),
   (rank_validation ⟨[2, 2], .float64, []⟩ true).2 (by decide),
   (rank_validation ⟨[2, 2], .float64, []⟩ false).2 (by decide)⟩

/-- C4: for a buffer of correct rank whose dtype is outside the allowed set
even after 16-bit normalization, construction with `auto_cast = true` fails
with `UnsupportedDType`; with `auto_cast = false` construction succeeds and
stores the buffer unchanged, whatever its dtype. -/
theorem dtype_gate (b : NDArray) :
    (b.ndim = 2 → b.dtype ∉ _ALLOWED_DTYPES → b.dtype ≠ .uint16 → b.dtype ≠ .int16 →
      SingleChannelImage.make b true = .error .UnsupportedDType) ∧
    (b.ndim = 2 → SingleChannelImage.make b false = .ok ⟨b⟩) ∧
    (b.ndim = 3 → b.dtype ∉ _ALLOWED_DTYPES → b.dtype ≠ .uint16 → b.dtype ≠ .int16 →
      SingleChannelImageStack.make b true = .error .UnsupportedDType) ∧
    (b.ndim = 3 → SingleChannelImageStack.make b false = .ok ⟨b⟩) := by
  refine ⟨fun h2 ha hu hi => ?_, fun h2 => ?_, fun h3 ha hu hi => ?_, fun h3 => ?_⟩ <;>
    simp_all [SingleChannelImage.make, SingleChannelImageStack.make]

/-- Witness for C4 at an `int32` rank-2 buffer and an `int32` rank-3 buffer. -/
theorem dtype_gate_witness :
    SingleChannelImage.make ⟨[1, 1], .int32, [0]⟩ true = .error .UnsupportedDType ∧
    SingleChannelImage.make ⟨[1, 1], .int32, [0]⟩ false = .ok ⟨⟨[1, 1], .int32, [0]⟩⟩ ∧
    SingleChannelImageStack.make ⟨[1, 1, 1], .int32, [0]⟩ true = .error .UnsupportedDType ∧
    SingleChannelImageStack.make ⟨[1, 1, 1], .int32, [0]⟩ false
      = .ok ⟨⟨[1, 1, 1], .int32, [0]⟩⟩ :=
  ⟨(dtype_gate ⟨[1, 1], .int32, [0]⟩).1 (by decide) (by decide) (by decide) (by decide),
   (dtype_gate ⟨[1, 1], .int32, [0]⟩).2.1 (by decide),
   (dtype_gate ⟨[1, 1, 1], .int32, [0]⟩).2.2.1 (by decide) (by decide) (by decide) (by decide),
   (dtype_gate ⟨[1, 1, 1], .int32, [0]⟩).2.2.2 (by decide)⟩

/-- C5: for a buffer of correct rank with 16-bit (signed or unsigned) dtype
and `auto_cast = true`, construction succeeds (never `UnsupportedDType`) and
the stored dtype is `float32`. -/
theorem sixteen_bit_normalization (b : NDArray)
    (hd : b.dtype = DType.uint16 ∨ b.dtype = DType.int16) :
    (b.ndim = 2 → SingleChannelImage.make b true = .ok ⟨b.astype .float32⟩) ∧
    (b.ndim = 3 → SingleChannelImageStack.make b true = .ok ⟨b.astype .float32⟩) ∧
    (b.astype .float32).dtype = .float32 := by
  refine ⟨fun h2 => ?_, fun h3 => ?_, rfl⟩ <;>
    simp_all [SingleChannelImage.make, SingleChannelImageStack.make, NDArray.astype,
      _ALLOWED_DTYPES]

/-- Witness for C5 at a `uint16` image buffer and an `int16` stack buffer. -/
theorem sixteen_bit_normalization_witness :
    SingleChannelImage.make ⟨[1, 1], .uint16, [9]⟩ true
      = .ok ⟨⟨[1, 1], .float32, [9]⟩⟩ ∧
    SingleChannelImageStack.make ⟨[1, 1, 1], .int16, [9]⟩ true
      = .ok ⟨⟨[1, 1, 1], .float32, [9]⟩⟩ :=
  ⟨(sixteen_bit_normalization ⟨[1, 1], .uint16, [9]⟩ (by decide)).1 (by decide),
   (sixteen_bit_normalization ⟨[1, 1, 1], .int16, [9]⟩ (by decide)).2.1 (by decide)⟩

/-- C10: a 2-D buffer whose dtype is already in the allowed set is stored
unchanged by construction with `auto_cast = true` (no cast, no copy), and
`Describe()` renders exactly the buffer's shape. -/
theorem allowed_dtype_passthrough (b : NDArray) (h2 : b.ndim = 2)
    (hd : b.dtype ∈ _ALLOWED_DTYPES) :
    SingleChannelImage.make b true = .ok ⟨b⟩ ∧
    SingleChannelImage.describe ⟨b⟩ = "SingleChannelImage: " ++ shapeToString b.shape := by
  have h16 := allowed_not_sixteen_bit b.dtype hd
  refine ⟨?_, rfl⟩
  simp_all [SingleChannelImage.make]

/-- Witness for C10 at a concrete `float32` buffer of shape `(256, 256)`
(contents elided to two elements for evaluation). -/
theorem allowed_dtype_passthrough_witness :
    SingleChannelImage.make ⟨[2, 1], .float32, [3, 4]⟩ true
      = .ok ⟨⟨[2, 1], .float32, [3, 4]⟩⟩ ∧
    SingleChannelImage.describe ⟨⟨[2, 1], .float32, [3, 4]⟩⟩
      = "SingleChannelImage: " ++ shapeToString [2, 1] :=
  allowed_dtype_passthrough ⟨[2, 1], .float32, [3, 4]⟩ (by decide) (by decide)

/-- C2: appending an image whose 2-D shape differs from the established
`(H, W)` of a non-empty stack fails with `ShapeMismatch` and leaves the
stack exactly as it was (the run returns the unchanged prior state). -/
theorem append_shape_mismatch_unchanged
    (s : SingleChannelImageStack) (n H W h w : Nat) (i : SingleChannelImage)
    (hs : s._data.shape = [n, H, W]) (hn : 0 < n) (hH : 0 < H) (hW : 0 < W)
    (hi : i.data.shape = [h, w]) (hne : [h, w] ≠ [H, W]) :
    s.appendRun i = (.error .ShapeMismatch, s) := by
  have h2 : i.data.ndim = 2 := by simp [NDArray.ndim, hi]
  have hsz : s._data.size ≠ 0 := by
    simp only [NDArray.size, hs, List.prod_cons, List.prod_nil]
    simp [Nat.mul_eq_zero]
    omega
  simp [SingleChannelImageStack.appendRun, SingleChannelImageStack.append, h2, hsz, hs,
    hi, hne]

/-- Witness for C2: a `(1,2,2)` stack rejects a `(1,1)` image unchanged. -/
theorem append_shape_mismatch_unchanged_witness :
    SingleChannelImageStack.appendRun ⟨⟨[1, 2, 2], .float64, [0, 0, 0, 0]⟩⟩
      ⟨⟨[1, 1], .float64, [5]⟩⟩
      = (.error .ShapeMismatch, ⟨⟨[1, 2, 2], .float64, [0, 0, 0, 0]⟩⟩) :=
  append_shape_mismatch_unchanged ⟨⟨[1, 2, 2], .float64, [0, 0, 0, 0]⟩⟩ 1 2 2 1 1
    ⟨⟨[1, 1], .float64, [5]⟩⟩ rfl (by decide) (by decide) (by decide) rfl (by decide)

/-- C9: `append` decides emptiness by the buffer's total element count:
whenever `size = 0` — even with a nonzero axis-0 extent — a successful
append discards the buffer and adopts the image as the sole element, so the
length afterwards is 1 (and can therefore decrease across an append). -/
theorem append_size_empty_adopts
    (s : SingleChannelImageStack) (i : SingleChannelImage) (h w : Nat)
    (hsz : s._data.size = 0) (hi : i.data.shape = [h, w]) :
    s.append i = .ok ⟨expandDims0 i.data⟩ ∧
    SingleChannelImageStack.len ⟨expandDims0 i.data⟩ = 1 := by
  have h2 : i.data.ndim = 2 := by simp [NDArray.ndim, hi]
  exact ⟨append_empty_eq s i hsz h2, rfl⟩

/-- Witness for C9: a stack built on a `(2,0,0)` buffer has length 2, yet a
successful append leaves a single-image stack of length 1. -/
theorem append_size_empty_adopts_witness :
    SingleChannelImageStack.len ⟨⟨[2, 0, 0], .float64, []⟩⟩ = 2 ∧
    SingleChannelImageStack.append ⟨⟨[2, 0, 0], .float64, []⟩⟩ ⟨⟨[1, 1], .float64, [3]⟩⟩
      = .ok ⟨expandDims0 ⟨[1, 1], .float64, [3]⟩⟩ ∧
    SingleChannelImageStack.len ⟨expandDims0 ⟨[1, 1], .float64, [3]⟩⟩ = 1 :=
  ⟨rfl,
   (append_size_empty_adopts ⟨⟨[2, 0, 0], .float64, []⟩⟩ ⟨⟨[1, 1], .float64, [3]⟩⟩ 1 1
      (by decide) rfl).1,
   (append_size_empty_adopts ⟨⟨[2, 0, 0], .float64, []⟩⟩ ⟨⟨[1, 1], .float64, [3]⟩⟩ 1 1
      (by decide) rfl).2⟩

/-- C6: the per-stack state machine on the count of images: every successful
append leaves the stack populated (length > 0); an empty-buffer stack
becomes populated with exactly one image on its first successful append;
and construction from a buffer with nonzero axis-0 extent starts populated.
No operation of this layer ever returns a populated stack to length 0. -/
theorem stack_state_machine (s : SingleChannelImageStack) (i : SingleChannelImage) :
    (∀ s', s.append i = .ok s' → 0 < s'.len) ∧
    (s._data.size = 0 → i.data.ndim = 2 →
      ∃ s', s.append i = .ok s' ∧ s'.len = 1) ∧
    (∀ (b : NDArray) (ac : Bool) (st : SingleChannelImageStack),
      SingleChannelImageStack.make b ac = .ok st → 0 < b.shape.headI → 0 < st.len) := by
  refine ⟨?_, fun hsz h2 => ⟨⟨expandDims0 i.data⟩, append_empty_eq s i hsz h2, rfl⟩, ?_⟩
  · intro s' h
    unfold SingleChannelImageStack.append at h
    dsimp only at h
    split_ifs at h <;> injection h with h <;> subst h <;>
      simp [SingleChannelImageStack.len, expandDims0, concatenate0]
  · intro b ac st hmk hpos
    have := make_stack_ok_shape b ac st hmk
    simpa [SingleChannelImageStack.len, this] using hpos

/-- Witness for C6: appending to the canonical empty stack populates it,
appending again keeps it populated, and construction from a `(10,1,1)`
buffer starts populated. -/
theorem stack_state_machine_witness :
    (∃ s', SingleChannelImageStack.append ⟨SingleChannelImageStack._initialize_empty⟩
        ⟨⟨[1, 1], .float64, [3]⟩⟩ = .ok s' ∧ s'.len = 1) ∧
    0 < SingleChannelImageStack.len ⟨⟨[2, 1, 1], .float64, [3, 4]⟩⟩ ∧
    0 < SingleChannelImageStack.len ⟨⟨[10, 1, 1], .float64, [0]⟩⟩ :=
  ⟨(stack_state_machine ⟨SingleChannelImageStack._initialize_empty⟩
      ⟨⟨[1, 1], .float64, [3]⟩⟩).2.1 (by decide) (by decide),
   (stack_state_machine ⟨⟨[1, 1, 1], .float64, [3]⟩⟩
      ⟨⟨[1, 1], .float64, [4]⟩⟩).1 ⟨⟨[2, 1, 1], .float64, [3, 4]⟩⟩ (by decide),
   (stack_state_machine ⟨⟨[1, 1, 1], .float64, [3]⟩⟩
      ⟨⟨[1, 1], .float64, [4]⟩⟩).2.2 ⟨[10, 1, 1], .float64, [0]⟩ true
      ⟨⟨[10, 1, 1], .float64, [0]⟩⟩ (by decide) (by decide)⟩

/-! ### Iteration machinery -/

theorem list_mapM_ok {α β : Type} (l : List α) (f : α → Except Err β) (g : α → β)
    (h : ∀ a ∈ l, f a = .ok (g a)) : l.mapM f = .ok (l.map g) := by
  induction l with
  | nil => rfl
  | cons a t ih =>
    rw [List.mapM_cons, h a (List.mem_cons_self a t),
      ih fun x hx => h x (List.mem_cons_of_mem a hx)]
    rfl

theorem slice_join (c : Nat) (bs : List (List ℚ)) : ∀ (i : Nat),
    (∀ b ∈ bs, b.length = c) → i < bs.length →
    ((bs.flatten).drop (i * c)).take c = bs.getD i [] := by
  induction bs with
  | nil => intro i _ hi; cases hi
  | cons b t ih =>
    intro i hlen hi
    have hb : b.length = c := hlen b (List.mem_cons_self _ _)
    cases i with
    | zero =>
      simpa [List.flatten] using List.take_left' hb
    | succ j =>
      have hmul : (j + 1) * c = c + j * c := by ring
      rw [List.flatten_cons, hmul, ← List.drop_drop, List.drop_left' hb]
      have := ih j (fun x hx => hlen x (List.mem_cons_of_mem b hx))
        (Nat.lt_of_succ_lt_succ (by simpa using hi))
      simpa using this

theorem map_range_getD {β : Type} (f : List ℚ → β) (bs : List (List ℚ)) :
    ((List.range bs.length).map fun i => f (bs.getD i [])) = bs.map f := by
  induction bs with
  | nil => rfl
  | cons b t ih =>
    rw [List.length_cons, List.range_succ_eq_map, List.map_cons, List.map_map]
    have hcomp : ((fun i => f ((b :: t).getD i [])) ∘ Nat.succ)
        = fun i => f (t.getD i []) := by
      funext i; rfl
    rw [hcomp, ih]
    rfl

theorem make_allowed_2d (H W : Nat) (d : DType) (D : List ℚ)
    (hd : d ∈ _ALLOWED_DTYPES) :
    SingleChannelImage.make ⟨[H, W], d, D⟩ true = .ok ⟨⟨[H, W], d, D⟩⟩ := by
  have h16 := allowed_not_sixteen_bit d hd
  simp [SingleChannelImage.make, NDArray.ndim, hd, h16]

theorem toList_of_blocks (bs : List (List ℚ)) (H W : Nat) (d : DType)
    (hd : d ∈ _ALLOWED_DTYPES) (hb : ∀ b ∈ bs, b.length = H * W) :
    SingleChannelImageStack.toList ⟨⟨[bs.length, H, W], d, bs.flatten⟩⟩
      = .ok (bs.map fun b => ⟨⟨[H, W], d, b⟩⟩) := by
  unfold SingleChannelImageStack.toList
  have hhead : (⟨⟨[bs.length, H, W], d, bs.flatten⟩⟩ :
      SingleChannelImageStack)._data.shape.headI = bs.length := rfl
  rw [hhead, list_mapM_ok _ _ (fun i => ⟨⟨[H, W], d, bs.getD i []⟩⟩) ?ok]
  case ok =>
    intro i hi
    have hi' : i < bs.length := List.mem_range.mp hi
    have hsl : NDArray.slice0 ⟨[bs.length, H, W], d, bs.flatten⟩ i
        = ⟨[H, W], d, bs.getD i []⟩ := by
      simp only [NDArray.slice0, List.drop, List.prod_cons, List.prod_nil, Nat.mul_one]
      rw [slice_join (H * W) bs i hb hi']
    rw [hsl]
    exact make_allowed_2d H W d (bs.getD i []) hd
  rw [map_range_getD (fun b => (⟨⟨[H, W], d, b⟩⟩ : SingleChannelImage)) bs]

theorem foldAppend_blocks (H W : Nat) (imgs : List SingleChannelImage) :
    ∀ (k : Nat) (d : DType) (D : List ℚ),
    0 < k → 0 < H → 0 < W →
    (∀ i ∈ imgs, i.data.shape = [H, W]) →
    ∃ d', foldAppend ⟨⟨[k, H, W], d, D⟩⟩ imgs
        = .ok ⟨⟨[k + imgs.length, H, W], d',
            D ++ (imgs.map fun i => i.data.data).flatten⟩⟩
      ∧ (d ∈ _ALLOWED_DTYPES → (∀ i ∈ imgs, i.data.dtype ∈ _ALLOWED_DTYPES) →
          d' ∈ _ALLOWED_DTYPES) := by
  induction imgs with
  | nil =>
    intro k d D _ _ _ _
    exact ⟨d, by simp [foldAppend], fun h _ => h⟩
  | cons i t ih =>
    intro k d D hk hH hW hshape
    have hi : i.data.shape = [H, W] := hshape i (List.mem_cons_self _ _)
    have hsz : (⟨⟨[k, H, W], d, D⟩⟩ : SingleChannelImageStack)._data.size ≠ 0 := by
      simp [NDArray.size, Nat.mul_eq_zero]
      omega
    have hstep := append_nonempty_eq ⟨⟨[k, H, W], d, D⟩⟩ i k H W rfl hsz hi
    obtain ⟨d', hfold, hall⟩ := ih (k + 1) (d.promote i.data.dtype) (D ++ i.data.data)
      (Nat.succ_pos k) hH hW (fun x hx => hshape x (List.mem_cons_of_mem i hx))
    refine ⟨d', ?_, ?_⟩
    · rw [foldAppend, hstep]
      dsimp only
      rw [hfold]
      simp only [List.length_cons, List.map_cons, List.flatten_cons, ← List.append_assoc]
      have harith : k + 1 + t.length = k + (t.length + 1) := by omega
      rw [harith]
    · intro hda hia
      exact hall
        (promote_allowed d i.data.dtype hda (hia i (List.mem_cons_self _ _)))
        (fun x hx => hia x (List.mem_cons_of_mem i hx))

/-- C3 (amended): `Length()` always returns the axis-0 extent of the owned
buffer; and for every stack whose dtype the iteration-side image
constructor accepts — the allowed set or the auto-cast 16-bit dtypes —
running `Iterate()` to completion yields exactly `Length()` images.
(Outside that dtype set iteration can instead raise: the counterexample
exhibits a reachable positive-length `int32` stack whose iteration fails.) -/
theorem len_iterate_agree (s : SingleChannelImageStack) (n H W : Nat)
    (hs : s._data.shape = [n, H, W])
    (hd : s._data.dtype ∈ _ALLOWED_DTYPES ∨ s._data.dtype = DType.uint16 ∨
      s._data.dtype = DType.int16) :
    s.len = n ∧ ∃ l, s.toList = .ok l ∧ l.length = s.len := by
  have hlen : s.len = n := by simp [SingleChannelImageStack.len, hs]
  refine ⟨hlen, ?_⟩
  have hmk : ∀ i ∈ List.range s._data.shape.headI,
      SingleChannelImage.make (s._data.slice0 i) true
        = .ok (if s._data.dtype = DType.uint16 ∨ s._data.dtype = DType.int16
            then ⟨(s._data.slice0 i).astype .float32⟩ else ⟨s._data.slice0 i⟩) := by
    intro i _
    have h2 : (s._data.slice0 i).ndim = 2 := by
      simp [NDArray.slice0, NDArray.ndim, hs]
    have hdt : (s._data.slice0 i).dtype = s._data.dtype := rfl
    by_cases h16 : s._data.dtype = DType.uint16 ∨ s._data.dtype = DType.int16
    · simp [SingleChannelImage.make, h2, hdt, h16, _ALLOWED_DTYPES, NDArray.astype]
    · have hda : s._data.dtype ∈ _ALLOWED_DTYPES := by tauto
      have h16' := allowed_not_sixteen_bit s._data.dtype hda
      simp [SingleChannelImage.make, h2, hdt, h16, hda]
  unfold SingleChannelImageStack.toList
  exact ⟨_, list_mapM_ok _ _ _ hmk, by simp [SingleChannelImageStack.len]⟩

/-- Witness for C3 at a two-image `float64` stack. -/
theorem len_iterate_agree_witness :
    SingleChannelImageStack.len ⟨⟨[2, 1, 1], .float64, [4, 5]⟩⟩ = 2 ∧
    ∃ l, SingleChannelImageStack.toList ⟨⟨[2, 1, 1], .float64, [4, 5]⟩⟩ = .ok l ∧
      l.length = SingleChannelImageStack.len ⟨⟨[2, 1, 1], .float64, [4, 5]⟩⟩ :=
  len_iterate_agree ⟨⟨[2, 1, 1], .float64, [4, 5]⟩⟩ 2 1 1 rfl (by decide)

/-- C3 counterexample: a stack is constructible (with `auto_cast=false`)
over an `int32` buffer; its length is 1, but running `Iterate()` raises
`UnsupportedDType` at the first element, so iteration never completes and
never yields `Length()` images. -/
theorem iterate_dtype_counterexample :
    SingleChannelImageStack.make ⟨[1, 1, 1], .int32, [0]⟩ false
      = .ok ⟨⟨[1, 1, 1], .int32, [0]⟩⟩ ∧
    SingleChannelImageStack.len ⟨⟨[1, 1, 1], .int32, [0]⟩⟩ = 1 ∧
    SingleChannelImageStack.toList ⟨⟨[1, 1, 1], .int32, [0]⟩⟩
      = .error .UnsupportedDType := by
  refine ⟨by decide, rfl, by decide⟩

/-- C7: `InitializeEmpty()` is the canonical `(0,0,0)` buffer, a stack in
that state has length 0, appending one Image Entity (rank-2, allowed
dtype, well-formed data) yields length 1, and iterating then yields
exactly that one image. -/
theorem initialize_empty_append_one
    (i : SingleChannelImage) (h w : Nat)
    (hi : i.data.shape = [h, w]) (hd : i.data.dtype ∈ _ALLOWED_DTYPES)
    (hwf : i.data.data.length = h * w) :
    SingleChannelImageStack._initialize_empty.shape = [0, 0, 0] ∧
    SingleChannelImageStack.len ⟨SingleChannelImageStack._initialize_empty⟩ = 0 ∧
    SingleChannelImageStack.append ⟨SingleChannelImageStack._initialize_empty⟩ i
      = .ok ⟨expandDims0 i.data⟩ ∧
    SingleChannelImageStack.len ⟨expandDims0 i.data⟩ = 1 ∧
    SingleChannelImageStack.toList ⟨expandDims0 i.data⟩ = .ok [i] := by
  obtain ⟨⟨sh, dt, da⟩⟩ := i
  simp only at hi hd hwf
  subst hi
  have h2 : (⟨⟨[h, w], dt, da⟩⟩ : SingleChannelImage).data.ndim = 2 := rfl
  refine ⟨rfl, rfl, append_empty_eq _ _ rfl h2, rfl, ?_⟩
  have hsl : NDArray.slice0 ⟨[1, h, w], dt, da⟩ 0 = ⟨[h, w], dt, da⟩ := by
    simp only [NDArray.slice0, List.drop, List.prod_cons, List.prod_nil, Nat.mul_one,
      Nat.zero_mul, List.drop_zero]
    rw [← hwf, List.take_length]
  show SingleChannelImageStack.toList ⟨⟨[1, h, w], dt, da⟩⟩ = .ok [⟨⟨[h, w], dt, da⟩⟩]
  have hmk : ∀ a ∈ List.range ((⟨⟨[1, h, w], dt, da⟩⟩ :
        SingleChannelImageStack)._data.shape.headI),
      SingleChannelImage.make ((⟨⟨[1, h, w], dt, da⟩⟩ :
        SingleChannelImageStack)._data.slice0 a) true
        = .ok ⟨⟨[h, w], dt, da⟩⟩ := by
    intro a ha
    have ha0 : a = 0 := by simpa using ha
    subst ha0
    show SingleChannelImage.make (NDArray.slice0 ⟨[1, h, w], dt, da⟩ 0) true = _
    rw [hsl]
    exact make_allowed_2d h w dt da hd
  unfold SingleChannelImageStack.toList
  rw [list_mapM_ok _ _ _ hmk]
  rfl

/-- Witness for C7 at a `uint8` image of shape `(1, 2)`. -/
theorem initialize_empty_append_one_witness :
    SingleChannelImageStack._initialize_empty.shape = [0, 0, 0] ∧
    SingleChannelImageStack.len ⟨SingleChannelImageStack._initialize_empty⟩ = 0 ∧
    SingleChannelImageStack.append ⟨SingleChannelImageStack._initialize_empty⟩
      ⟨⟨[1, 2], .uint8, [7, 8]⟩⟩ = .ok ⟨expandDims0 ⟨[1, 2], .uint8, [7, 8]⟩⟩ ∧
    SingleChannelImageStack.len ⟨expandDims0 ⟨[1, 2], .uint8, [7, 8]⟩⟩ = 1 ∧
    SingleChannelImageStack.toList ⟨expandDims0 ⟨[1, 2], .uint8, [7, 8]⟩⟩
      = .ok [⟨⟨[1, 2], .uint8, [7, 8]⟩⟩] :=
  initialize_empty_append_one ⟨⟨[1, 2], .uint8, [7, 8]⟩⟩ 1 2 rfl (by decide) (by decide)

/-- C1 (amended): starting from a stack whose buffer is empty in the sense
`append` tests (`size = 0`), appending at least one Image Entity, all of
identical positive shape `(H, W)`, allowed dtype and well-formed data,
succeeds; afterwards the length equals the number of appended images and
iteration yields images whose 2-D contents equal the appended ones,
element for element, in append order. -/
theorem empty_stack_append_order
    (s : SingleChannelImageStack) (H W : Nat) (imgs : List SingleChannelImage)
    (hsz : s._data.size = 0) (hne : imgs ≠ [])
    (hH : 0 < H) (hW : 0 < W)
    (hshape : ∀ i ∈ imgs, i.data.shape = [H, W])
    (hdt : ∀ i ∈ imgs, i.data.dtype ∈ _ALLOWED_DTYPES)
    (hwf : ∀ i ∈ imgs, i.data.data.length = H * W) :
    ∃ s' d, foldAppend s imgs = .ok s' ∧
      s'.len = imgs.length ∧
      s'.toList = .ok (imgs.map fun i => ⟨⟨[H, W], d, i.data.data⟩⟩) := by
  cases imgs with
  | nil => exact absurd rfl hne
  | cons i t =>
    have hi : i.data.shape = [H, W] := hshape i (List.mem_cons_self _ _)
    have h2 : i.data.ndim = 2 := by simp [NDArray.ndim, hi]
    have hstep := append_empty_eq s i hsz h2
    have hexp : expandDims0 i.data = ⟨[1, H, W], i.data.dtype, i.data.data⟩ := by
      simp [expandDims0, hi]
    obtain ⟨d', hfold, hall⟩ := foldAppend_blocks H W t 1 i.data.dtype i.data.data
      Nat.one_pos hH hW (fun x hx => hshape x (List.mem_cons_of_mem i hx))
    have hd' : d' ∈ _ALLOWED_DTYPES := hall (hdt i (List.mem_cons_self _ _))
      (fun x hx => hdt x (List.mem_cons_of_mem i hx))
    have hcomm : 1 + t.length = t.length + 1 := by omega
    have hfinal : foldAppend s (i :: t) = .ok ⟨⟨[t.length + 1, H, W], d',
        i.data.data ++ (t.map fun x => x.data.data).flatten⟩⟩ := by
      rw [foldAppend, hstep]
      dsimp only
      rw [hexp, hfold, hcomm]
    refine ⟨_, d', hfinal, ?_, ?_⟩
    · simp [SingleChannelImageStack.len]
    · have hbs := toList_of_blocks ((i :: t).map fun x => x.data.data) H W d' hd'
        (by
          intro b hb
          obtain ⟨x, hx, rfl⟩ := List.mem_map.mp hb
          exact hwf x hx)
      simp only [List.map_cons, List.flatten_cons, List.length_map, List.length_cons,
        List.map_map] at hbs
      exact hbs

/-- Witness for C1: two `uint8` images of shape `(1,1)` appended to the
canonical empty stack. -/
theorem empty_stack_append_order_witness :
    ∃ s' d, foldAppend ⟨⟨[0, 0, 0], .float64, []⟩⟩
        [⟨⟨[1, 1], .uint8, [2]⟩⟩, ⟨⟨[1, 1], .uint8, [3]⟩⟩] = .ok s' ∧
      s'.len = ([⟨⟨[1, 1], .uint8, [2]⟩⟩, ⟨⟨[1, 1], .uint8, [3]⟩⟩] :
        List SingleChannelImage).length ∧
      s'.toList = .ok (([⟨⟨[1, 1], .uint8, [2]⟩⟩, ⟨⟨[1, 1], .uint8, [3]⟩⟩] :
        List SingleChannelImage).map fun i => ⟨⟨[1, 1], d, i.data.data⟩⟩) :=
  empty_stack_append_order ⟨⟨[0, 0, 0], .float64, []⟩⟩ 1 1
    [⟨⟨[1, 1], .uint8, [2]⟩⟩, ⟨⟨[1, 1], .uint8, [3]⟩⟩]
    (by decide) (by decide) (by decide) (by decide)
    (by decide) (by decide) (by decide)

/-- C1 counterexample: for a reachable, already non-empty stack `S` (one
`(1,1)` image), appending `n = 1` further image of the matching shape
leaves `Length(S) = 2 ≠ 1`, refuting the claim's `Length(S) == n` for
arbitrary stacks. -/
theorem nonempty_start_length_counterexample :
    SingleChannelImageStack.make ⟨[1, 1, 1], .float64, [0]⟩ true
      = .ok ⟨⟨[1, 1, 1], .float64, [0]⟩⟩ ∧
    foldAppend ⟨⟨[1, 1, 1], .float64, [0]⟩⟩ [⟨⟨[1, 1], .float64, [5]⟩⟩]
      = .ok ⟨⟨[2, 1, 1], .float64, [0, 5]⟩⟩ ∧
    SingleChannelImageStack.len ⟨⟨[2, 1, 1], .float64, [0, 5]⟩⟩ = 2 ∧
    ([⟨⟨[1, 1], .float64, [5]⟩⟩] : List SingleChannelImage).length = 1 := by
  refine ⟨by decide, by decide, rfl, rfl⟩

end SemantivaImaging
